import Mathlib

/-!
Verification of the context-aware suggestion pipeline of the
auto-cli-suggestion repository, as a shallow embedding in Lean 4.

Embedded source files:
  - cache-manager.js           (namespace CacheManager)
  - context-manager.js         (ContextState, buildContextPrompt, ...)
  - gemini-service-optimized.js (postWithKeyRotation, getCommandSuggestion)
  - config.js                  (Config, defaultConfig)

Modelling conventions:
  - JS strings are Lean String values; the JS string primitives used by the
    code (trim, toLowerCase, startsWith, includes, substring, join) are
    embedded as executable list-based functions (jsTrim, jsToLower, ...).
  - JS numbers holding timestamps and durations are Int (millisecond
    clock); JS numbers holding monetary cost are exact rationals, so the
    float arithmetic of the source is modelled exactly and toFixed(d) is
    modelled as rounding to d decimal digits.
  - The JS Map of cache-manager.js is a List of key/value pairs in
    insertion order, with lookup on the first matching key, which matches
    Map get/set/delete/keys order for maps with unique keys.
  - File persistence (saveCache, saveUsageStats) is modelled by emitting a
    StoreWrite event; loading is modelled on the successfully-parsed path.
  - Remote calls are modelled by an oracle resp : Nat -> Option R giving
    the outcome of each attempt; a None outcome is a thrown request error.
-/

/-- Model of JS exceptions that the embedded code can raise. -/
inductive JsErr where
  | referenceError
  | typeError
deriving DecidableEq

/-- JS String.prototype.trim: strip leading and trailing whitespace. -/
def jsTrim (s : String) : String :=
  ⟨((s.data.dropWhile Char.isWhitespace).reverse.dropWhile Char.isWhitespace).reverse⟩

/-- JS String.prototype.toLowerCase (ASCII case fold, as used here). -/
def jsToLower (s : String) : String :=
  ⟨s.data.map Char.toLower⟩

/-- JS String.prototype.startsWith. -/
def jsStartsWith (s pre : String) : Bool :=
  pre.data.isPrefixOf s.data

/-- Helper for jsIncludes: does pat occur as a contiguous run in l. -/
def listContains (pat : List Char) : List Char → Bool
  | [] => pat.isPrefixOf []
  | c :: rest => pat.isPrefixOf (c :: rest) || listContains pat rest

/-- JS String.prototype.includes: substring containment. -/
def jsIncludes (s pat : String) : Bool :=
  listContains pat.data s.data

/-- JS String.prototype.substring(0, n). -/
def jsTake (s : String) (n : Nat) : String :=
  ⟨s.data.take n⟩

/-- JS Array.prototype.join(sep). -/
def jsJoin (sep : String) : List String → String
  | [] => ""
  | [x] => x
  | x :: y :: rest => x ++ sep ++ jsJoin sep (y :: rest)

/-- JS truthiness of a nullable string: null and the empty string are falsy. -/
def jsTruthyStr : Option String → Bool
  | some s => s ≠ ""
  | none => false

/-- The configuration surface of config.js consumed by the embedded core. -/
structure Config where
  ENABLE_SUGGESTIONS : Bool
  MIN_INPUT_LENGTH : Nat
  MAX_SUGGESTION_LENGTH : Nat
  ENABLE_CACHE : Bool
  CACHE_DURATION : Int
  MAX_CACHE_SIZE : Nat
  MAX_DAILY_REQUESTS : Nat
  REQUEST_COOLDOWN : Int
deriving DecidableEq

/-- The values of config.js. -/
def defaultConfig : Config where
  ENABLE_SUGGESTIONS := true
  MIN_INPUT_LENGTH := 3
  MAX_SUGGESTION_LENGTH := 30
  ENABLE_CACHE := true
  CACHE_DURATION := 3600000
  MAX_CACHE_SIZE := 1000
  MAX_DAILY_REQUESTS := 100
  REQUEST_COOLDOWN := 5000

namespace CacheManager

/-- A cached suggestion as stored by cache-manager.js set. -/
structure CacheEntry where
  suggestion : String
  timestamp : Int
deriving DecidableEq

/-- The JS Map of cache-manager.js: key/value pairs in insertion order. -/
abbrev CacheMap := List (String × CacheEntry)

/-- JS Map.prototype.get. -/
def mapGet (m : CacheMap) (k : String) : Option CacheEntry :=
  match m with
  | [] => none
  | (k₀, v) :: rest => if k₀ = k then some v else mapGet rest k

/-- JS Map.prototype.set: update in place when the key is present,
append at the end of the insertion order otherwise. -/
def mapSet (m : CacheMap) (k : String) (v : CacheEntry) : CacheMap :=
  match m with
  | [] => [(k, v)]
  | (k₀, v₀) :: rest => if k₀ = k then (k₀, v) :: rest else (k₀, v₀) :: mapSet rest k v

/-- JS Map.prototype.delete (keys are unique, so at most one entry matches). -/
def mapDelete (m : CacheMap) (k : String) : CacheMap :=
  match m with
  | [] => []
  | (k₀, v₀) :: rest => if k₀ = k then rest else (k₀, v₀) :: mapDelete rest k

/-- The usageStats record of cache-manager.js. -/
structure UsageStats where
  totalRequests : Nat
  cachedHits : Nat
  dailyRequests : Nat
  lastReset : String
  costEstimate : ℚ
deriving DecidableEq

/-- A write to a persistent store (saveCache / saveUsageStats). -/
inductive StoreWrite where
  | cacheFile (cache : CacheMap)
  | usageFile (stats : UsageStats)
deriving DecidableEq

/-- cache-manager.js getCacheKey: normalized cache key. -/
def getCacheKey (input : String) : String :=
  jsToLower (jsTrim input)

/-- cache-manager.js get (lines 94-106): returns the suggestion on a fresh
hit and bumps cachedHits; no store write is performed. -/
def get (cfg : Config) (cache : CacheMap) (stats : UsageStats) (input : String)
    (now : Int) : Option String × UsageStats × List StoreWrite :=
  if cfg.ENABLE_CACHE = false then (none, stats, [])
  else
    let key := getCacheKey input
    match mapGet cache key with
    | some cached =>
      if now - cached.timestamp < cfg.CACHE_DURATION then
        (some cached.suggestion, { stats with cachedHits := stats.cachedHits + 1 }, [])
      else (none, stats, [])
    | none => (none, stats, [])

/-- cache-manager.js set (lines 108-125): evict the first key of the
insertion order when the map is at capacity, insert, persist. -/
def set (cfg : Config) (cache : CacheMap) (input suggestion : String)
    (now : Int) : CacheMap × List StoreWrite :=
  if cfg.ENABLE_CACHE = false then (cache, [])
  else
    let key := getCacheKey input
    let cache₁ :=
      if cfg.MAX_CACHE_SIZE ≤ cache.length then
        match cache.head? with
        | some oldest => mapDelete cache oldest.1
        | none => cache
      else cache
    let cache₂ := mapSet cache₁ key ⟨suggestion, now⟩
    (cache₂, [StoreWrite.cacheFile cache₂])

/-- cache-manager.js canMakeRequest (lines 127-140). -/
def canMakeRequest (cfg : Config) (stats : UsageStats) (lastRequestTime now : Int) : Bool :=
  if cfg.MAX_DAILY_REQUESTS ≤ stats.dailyRequests then false
  else if now - lastRequestTime < cfg.REQUEST_COOLDOWN then false
  else true

/-- cache-manager.js recordRequest (lines 142-154): bump counters, stamp the
request time, accumulate the cost estimate, persist the stats. -/
def recordRequest (stats : UsageStats) (now : Int) (tokenCount : Nat) :
    UsageStats × Int × List StoreWrite :=
  let inputCost : ℚ := ((tokenCount : ℚ) * 0.000075) / 1000000
  let outputCost : ℚ := ((tokenCount : ℚ) * 0.0003) / 1000000
  let stats' := { stats with
    totalRequests := stats.totalRequests + 1
    dailyRequests := stats.dailyRequests + 1
    costEstimate := stats.costEstimate + (inputCost + outputCost) }
  (stats', now, [StoreWrite.usageFile stats'])

/-- cache-manager.js loadUsageStats (lines 58-76), successfully-parsed path:
the daily counter is reset here, and only here, on a calendar day change. -/
def loadUsageStats (stored : UsageStats) (today : String) : UsageStats :=
  if stored.lastReset ≠ today then
    { stored with dailyRequests := 0, lastReset := today }
  else stored

/-- Value of the JS number x rendered by toFixed(d), as an exact rational:
x rounded to d decimal digits. -/
def toFixedQ (d : Nat) (q : ℚ) : ℚ :=
  ((round (q * (10 : ℚ) ^ d) : ℤ) : ℚ) / (10 : ℚ) ^ d

/-- The object returned by cache-manager.js getUsageStats. -/
structure UsageStatsView where
  totalRequests : Nat
  cachedHits : Nat
  dailyRequests : Nat
  lastReset : String
  costEstimate : ℚ
  cacheHitRate : ℚ
  estimatedCost : ℚ
deriving DecidableEq

/-- cache-manager.js getUsageStats (lines 156-168): spread of usageStats
plus a percentage hit rate to one decimal and a cost to six decimals. -/
def getUsageStats (stats : UsageStats) : UsageStatsView where
  totalRequests := stats.totalRequests
  cachedHits := stats.cachedHits
  dailyRequests := stats.dailyRequests
  lastReset := stats.lastReset
  costEstimate := stats.costEstimate
  cacheHitRate :=
    if 0 < stats.totalRequests then
      toFixedQ 1 (((stats.cachedHits : ℚ) / (stats.totalRequests : ℚ)) * 100)
    else 0
  estimatedCost := toFixedQ 6 stats.costEstimate

/-- Iterated set, used to state the capacity property: each list element is
an (input, suggestion, now) triple inserted in order. -/
def insertAll (cfg : Config) (l : List (String × String × Int)) (c : CacheMap) : CacheMap :=
  match l with
  | [] => c
  | p :: rest => insertAll cfg rest (set cfg c p.1 p.2.1 p.2.2).1

end CacheManager

/-- A directory entry of the context snapshot (context-manager.js
fileContext; size and mtime are collected but never read by the embedded
functions and are omitted). -/
structure FileInfo where
  name : String
  isDirectory : Bool
deriving DecidableEq

/-- context-manager.js gitContext on the successful-probe path. -/
structure GitInfo where
  isGitRepo : Bool
  currentBranch : String
  hasChanges : Bool
deriving DecidableEq

/-- context-manager.js nodeContext (scripts are kept as their name list;
the code only reads their count). -/
structure NodeInfo where
  hasPackageJson : Bool
  name : String
  scripts : List String
deriving DecidableEq

/-- The fields of a ContextManager instance read by the embedded functions.
directory is path.basename(currentDirectory); git and node are none before
the first updateContext, mirroring their null initialisation. -/
structure ContextState where
  directory : String
  recentCommands : List String
  fileContext : List FileInfo
  git : Option GitInfo
  node : Option NodeInfo
deriving DecidableEq

/-- The object built by context-manager.js getContextSummary. -/
structure ContextSummary where
  directory : String
  recentCommands : List String
  fileCount : Nat
  directories : Nat
  files : Nat
  git : Option GitInfo
  node : Option NodeInfo
deriving DecidableEq

/-- context-manager.js getContextSummary (lines 122-136). -/
def getContextSummary (st : ContextState) : ContextSummary where
  directory := st.directory
  recentCommands := st.recentCommands.take 3
  fileCount := st.fileContext.length
  directories := (st.fileContext.filter (fun f => f.isDirectory)).length
  files := (st.fileContext.filter (fun f => !f.isDirectory)).length
  git := st.git
  node := st.node

/-- context-manager.js getDirectoryType (lines 176-203): fixed priority
classification of the directory. -/
def getDirectoryType (st : ContextState) : String :=
  if (match st.node with | some n => n.hasPackageJson | none => false) then "nodejs"
  else if (match st.git with | some g => g.isGitRepo | none => false) then "git"
  else if st.fileContext.any (fun f => jsIncludes f.name ".py") then "python"
  else if st.fileContext.any (fun f => jsIncludes f.name ".java") then "java"
  else if st.fileContext.any (fun f => jsIncludes f.name ".cpp" || jsIncludes f.name ".c") then "cpp"
  else if st.fileContext.any (fun f => jsIncludes f.name ".html" || jsIncludes f.name ".js") then "web"
  else "general"

/-- context-manager.js getRelevantCommands (lines 205-225): canonical
command table per directory type. -/
def getRelevantCommands (st : ContextState) : List String :=
  match getDirectoryType st with
  | "nodejs" => ["npm install", "npm start", "npm run dev", "npm test", "npm run build"]
  | "git" => ["git status", "git add .", "git commit", "git push", "git pull"]
  | "python" => ["python", "pip install", "python -m venv", "python manage.py"]
  | "java" => ["javac", "java", "mvn", "gradle"]
  | "cpp" => ["g++", "make", "cmake", "./a.out"]
  | "web" => ["npm install", "npm start", "npx", "yarn"]
  | _ => ["ls", "cd", "mkdir", "rm", "cp", "mv"]

/-- context-manager.js buildContextPrompt (lines 138-174). The prompt is
assembled exactly as in the source through line 170; line 171 then appends
a template that reads the name config, which context-manager.js never
imports, so evaluating it raises a ReferenceError and the function never
returns the assembled string. -/
def buildContextPrompt (st : ContextState) (userInput : String) : Except JsErr String :=
  let context := getContextSummary st
  let prompt := "Context: Working in \"" ++ context.directory ++ "\" directory. "
  let prompt :=
    match context.git with
    | some g =>
      if g.isGitRepo then
        let p := prompt ++ "Git repo on branch \"" ++ g.currentBranch ++ "\". "
        if g.hasChanges then p ++ "Has uncommitted changes. " else p
      else prompt
    | none => prompt
  let prompt :=
    match context.node with
    | some n =>
      if n.hasPackageJson then
        let p := prompt ++ "Node.js project \"" ++ n.name ++ "\". "
        let scriptCount := n.scripts.length
        if 0 < scriptCount then p ++ "Has " ++ toString scriptCount ++ " npm scripts. " else p
      else prompt
    | none => prompt
  let prompt :=
    if 0 < context.recentCommands.length then
      prompt ++ "Recent commands: " ++ jsJoin ", " context.recentCommands ++ ". "
    else prompt
  let prompt :=
    if 0 < context.files ∨ 0 < context.directories then
      prompt ++ "Directory has " ++ toString context.files ++ " files, "
        ++ toString context.directories ++ " folders. "
    else prompt
  let _prompt := prompt ++ "User input: \"" ++ userInput ++ "\". "
  Except.error JsErr.referenceError

/-- context-manager.js getContextualSuggestion (lines 227-249), taking the
already-updated context state: return the first canonical command whose
case-folded text starts with the case-folded input, else fall through to
prompt building. -/
def getContextualSuggestion (st : ContextState) (userInput : String) :
    Except JsErr (String ⊕ String) :=
  let relevantCommands := getRelevantCommands st
  let matchingCommands :=
    relevantCommands.filter (fun cmd => jsStartsWith (jsToLower cmd) (jsToLower userInput))
  match matchingCommands with
  | m :: _ => Except.ok (Sum.inl m)
  | [] =>
    match buildContextPrompt st userInput with
    | Except.ok p => Except.ok (Sum.inr p)
    | Except.error e => Except.error e

/-- gemini-service-optimized.js postWithKeyRotation (lines 34-53). K is the
credential pool size, resp gives the outcome of each numbered attempt (none
models a thrown request error), idx is currentKeyIndex. The returned Nat is
the currentKeyIndex after the call (the instance field it mutates). -/
def postWithKeyRotation {R : Type} (K : Nat) (resp : Nat → Option R)
    (idx attempt : Nat) : Except String R × Nat :=
  if K ≤ attempt then (Except.error "All API keys exhausted or failed.", idx)
  else
    match resp attempt with
    | some r => (Except.ok r, idx)
    | none => postWithKeyRotation K resp ((idx + 1) % K) (attempt + 1)
termination_by K - attempt
decreasing_by omega

/-- The key indices used by the successive attempts of postWithKeyRotation,
in order (one entry per POST actually issued). -/
def triedKeys {R : Type} (K : Nat) (resp : Nat → Option R)
    (idx attempt : Nat) : List Nat :=
  if K ≤ attempt then []
  else
    match resp attempt with
    | some _ => [idx]
    | none => idx :: triedKeys K resp ((idx + 1) % K) (attempt + 1)
termination_by K - attempt
decreasing_by omega

/-- One part of a candidate content, as read by the response handler
(text may be absent). -/
structure RespPart where
  text : Option String
deriving DecidableEq

/-- candidates[i].content, as read by the response handler. -/
structure RespContent where
  parts : List RespPart
deriving DecidableEq

/-- One completion candidate (content may be absent). -/
structure RespCandidate where
  content : Option RespContent
deriving DecidableEq

/-- response.data of the remote endpoint: the candidates field may be
absent, and usageMetadata.totalTokenCount may be absent. -/
structure ResponseData where
  candidates : Option (List RespCandidate)
  usageMetadata : Option Nat
deriving DecidableEq

/-- The chained access candidates[0].content.parts[0].text.trim() of
gemini-service-optimized.js line 110, applied to the first candidate: a
missing link raises a TypeError. -/
def extractCandidateText (c : RespCandidate) : Except JsErr String :=
  match c.content with
  | none => Except.error JsErr.typeError
  | some ct =>
    match ct.parts with
    | [] => Except.error JsErr.typeError
    | p :: _ =>
      match p.text with
      | none => Except.error JsErr.typeError
      | some t => Except.ok (jsTrim t)

/-- The mutable fields of an OptimizedGeminiService (with its CacheManager)
touched by one getCommandSuggestion call. -/
structure ServiceState where
  cache : CacheManager.CacheMap
  usageStats : CacheManager.UsageStats
  lastRequestTime : Int
  currentKeyIndex : Nat
deriving DecidableEq

/-- The outcome of one getCommandSuggestion call: returned value, state
after the call, store writes performed, and number of POST attempts the
dispatcher issued. -/
structure SuggestOutcome where
  result : Option String
  state : ServiceState
  writes : List CacheManager.StoreWrite
  dispatchAttempts : Nat
deriving DecidableEq

/-- gemini-service-optimized.js getCommandSuggestion (lines 55-134), with
the outcome of contextManager.getContextualSuggestion passed as
contextualResult (inl is a direct match, inr a built prompt, error a
thrown exception) and the remote POST outcomes passed as resp. -/
def getCommandSuggestion (cfg : Config) (K : Nat) (st : ServiceState)
    (userInput : String) (now : Int)
    (contextualResult : Except JsErr (String ⊕ String))
    (resp : Nat → Option ResponseData) : SuggestOutcome :=
  if cfg.ENABLE_SUGGESTIONS = false then ⟨none, st, [], 0⟩
  else if (jsTrim userInput).length < cfg.MIN_INPUT_LENGTH then ⟨none, st, [], 0⟩
  else
    let g := CacheManager.get cfg st.cache st.usageStats userInput now
    let st₁ : ServiceState := { st with usageStats := g.2.1 }
    if jsTruthyStr g.1 then ⟨g.1, st₁, g.2.2, 0⟩
    else if CacheManager.canMakeRequest cfg st₁.usageStats st₁.lastRequestTime now = false then
      ⟨none, st₁, g.2.2, 0⟩
    else
      match contextualResult with
      | Except.error _ => ⟨none, st₁, g.2.2, 0⟩
      | Except.ok (Sum.inl direct) => ⟨some direct, st₁, g.2.2, 0⟩
      | Except.ok (Sum.inr _prompt) =>
        let d := postWithKeyRotation K resp st₁.currentKeyIndex 0
        let attempts := (triedKeys K resp st₁.currentKeyIndex 0).length
        let st₂ : ServiceState := { st₁ with currentKeyIndex := d.2 }
        match d.1 with
        | Except.error _ => ⟨none, st₂, g.2.2, attempts⟩
        | Except.ok data =>
          match data.candidates with
          | some (c :: _) =>
            (match extractCandidateText c with
             | Except.error _ => ⟨none, st₂, g.2.2, attempts⟩
             | Except.ok t =>
               let finalSuggestion := jsTake t cfg.MAX_SUGGESTION_LENGTH
               let sres := CacheManager.set cfg st₂.cache userInput finalSuggestion now
               let tokenCount := data.usageMetadata.getD 0
               let rres := CacheManager.recordRequest st₂.usageStats now tokenCount
               ⟨some finalSuggestion,
                { cache := sres.1, usageStats := rres.1,
                  lastRequestTime := rres.2.1, currentKeyIndex := st₂.currentKeyIndex },
                g.2.2 ++ sres.2 ++ rres.2.2, attempts⟩)
          | _ => ⟨none, st₂, g.2.2, attempts⟩

/-- getCommandSuggestion composed with the real getContextualSuggestion of
context-manager.js, run on the freshly built context snapshot. -/
def getCommandSuggestionFull (cfg : Config) (K : Nat) (st : ServiceState)
    (userInput : String) (now : Int) (ctx : ContextState)
    (resp : Nat → Option ResponseData) : SuggestOutcome :=
  getCommandSuggestion cfg K st userInput now (getContextualSuggestion ctx userInput) resp

/-- Usage stats with all counters zero (fresh process). -/
def statsZero : CacheManager.UsageStats where
  totalRequests := 0
  cachedHits := 0
  dailyRequests := 0
  lastReset := "Sat Oct 11 2025"
  costEstimate := 0

/-- A stored usage record whose lastReset is an earlier calendar day and
whose daily counter is at the quota. -/
def statsStale : CacheManager.UsageStats where
  totalRequests := 250
  cachedHits := 40
  dailyRequests := 100
  lastReset := "Fri Oct 10 2025"
  costEstimate := 0

/-- Usage stats with one cached hit out of two requests. -/
def statsHalf : CacheManager.UsageStats where
  totalRequests := 2
  cachedHits := 1
  dailyRequests := 2
  lastReset := "Sat Oct 11 2025"
  costEstimate := 0

/-- A context snapshot of a version-controlled directory with no manifest. -/
def ctxGit : ContextState where
  directory := "app"
  recentCommands := []
  fileContext := []
  git := some { isGitRepo := true, currentBranch := "main", hasChanges := false }
  node := none

/-- A service state with an empty cache and fresh stats. -/
def stFresh : ServiceState where
  cache := []
  usageStats := statsZero
  lastRequestTime := 0
  currentKeyIndex := 0

/-- Remote outcome oracle: the first attempt fails, the second succeeds. -/
def respSecond : Nat → Option Nat :=
  fun t => if t = 1 then some 7 else none

/-- Remote outcome oracle: the first attempt returns a response whose only
candidate has empty text. -/
def respEmptyText : Nat → Option ResponseData :=
  fun _ => some { candidates := some [{ content := some { parts := [{ text := some "" }] } }]
                  usageMetadata := none }

/-- Remaining sample data used by witnesses and counterexamples. -/
def cacheOne : CacheManager.CacheMap := [("a", ⟨"s", 0⟩)]

/-- A two-entry cache in insertion order a, b. -/
def cacheTwo : CacheManager.CacheMap := [("a", ⟨"x", 0⟩), ("b", ⟨"y", 1⟩)]

/-- The configuration with a cache capacity of two entries. -/
def cfgMax2 : Config := { defaultConfig with MAX_CACHE_SIZE := 2 }

/-- Three distinct insertions for the capacity scenario. -/
def insertTriples : List (String × String × Int) :=
  [("a", "sa", 1), ("b", "sb", 2), ("c", "sc", 3)]

/-- The response whose only candidate carries empty text. -/
def dataEmptyText : ResponseData where
  candidates := some [{ content := some { parts := [{ text := some "" }] } }]
  usageMetadata := none

namespace CacheManager

theorem get_stats_frame (cfg : Config) (cache : CacheMap) (stats : UsageStats)
    (input : String) (now : Int) :
    (get cfg cache stats input now).2.1.totalRequests = stats.totalRequests
    ∧ (get cfg cache stats input now).2.1.dailyRequests = stats.dailyRequests
    ∧ (get cfg cache stats input now).2.1.costEstimate = stats.costEstimate
    ∧ (get cfg cache stats input now).2.2 = [] := by
  unfold get
  split
  · exact ⟨rfl, rfl, rfl, rfl⟩
  · cases hm : mapGet cache (getCacheKey input) with
    | none => simp [hm]
    | some cached =>
      simp only [hm]
      split
      · exact ⟨rfl, rfl, rfl, rfl⟩
      · exact ⟨rfl, rfl, rfl, rfl⟩

theorem mapSet_fresh (m : CacheMap) (k : String) (v : CacheEntry)
    (h : k ∉ m.map Prod.fst) : mapSet m k v = m ++ [(k, v)] := by
  induction m with
  | nil => rfl
  | cons p rest ih =>
    obtain ⟨k₀, v₀⟩ := p
    simp only [List.map_cons, List.mem_cons, not_or] at h
    unfold mapSet
    rw [if_neg (fun he => h.1 he.symm), ih h.2]
    rfl

theorem mapSet_keys_of_mem (m : CacheMap) (k : String) (v : CacheEntry)
    (h : k ∈ m.map Prod.fst) :
    (mapSet m k v).map Prod.fst = m.map Prod.fst := by
  induction m with
  | nil => simp at h
  | cons p rest ih =>
    obtain ⟨k₀, v₀⟩ := p
    unfold mapSet
    by_cases hk : k₀ = k
    · rw [if_pos hk]
      simp
    · rw [if_neg hk]
      simp only [List.map_cons, List.mem_cons] at h ⊢
      rcases h with h | h
      · exact absurd h.symm hk
      · rw [ih h]

theorem mapGet_mapSet_self (m : CacheMap) (k : String) (v : CacheEntry) :
    mapGet (mapSet m k v) k = some v := by
  induction m with
  | nil => simp [mapSet, mapGet]
  | cons p rest ih =>
    obtain ⟨k₀, v₀⟩ := p
    unfold mapSet
    by_cases hk : k₀ = k
    · rw [if_pos hk]
      unfold mapGet
      rw [if_pos hk]
    · rw [if_neg hk]
      unfold mapGet
      rw [if_neg hk]
      exact ih

end CacheManager

/-- Claim C2 counterexample: a stored record from the previous calendar day
at the daily quota; canMakeRequest evaluates the quota on the un-reset
counter and denies the request (it would allow it after the claimed reset),
recordRequest increments the stale counter instead of resetting it, and
getStats reports the stale counter unchanged. -/
theorem claim_C2_counterexample :
    CacheManager.canMakeRequest defaultConfig statsStale 0 1000000000 = false
    ∧ CacheManager.canMakeRequest defaultConfig { statsStale with dailyRequests := 0 } 0 1000000000 = true
    ∧ (CacheManager.recordRequest statsStale 1000000000 0).1.dailyRequests = 101
    ∧ (CacheManager.getUsageStats statsStale).dailyRequests = 100
    ∧ statsStale.lastReset ≠ "Sat Oct 11 2025" := by
  refine ⟨rfl, rfl, rfl, rfl, by decide⟩

/-- Claim C2 (amended): the daily counter resets only when the usage record
is loaded from the persistent store on a new calendar day; canMakeRequest,
recordRequest and getStats never reset it and work on the stored value. -/
theorem claim_C2_amended_reset_only_on_load (cfg : Config)
    (s : CacheManager.UsageStats) (today : String) (lrt now : Int) (tok : Nat)
    (h : s.lastReset ≠ today) :
    (CacheManager.loadUsageStats s today).dailyRequests = 0
    ∧ (CacheManager.loadUsageStats s today).lastReset = today
    ∧ (CacheManager.recordRequest s now tok).1.dailyRequests = s.dailyRequests + 1
    ∧ (CacheManager.getUsageStats s).dailyRequests = s.dailyRequests
    ∧ (CacheManager.canMakeRequest cfg s lrt now = true ↔
        s.dailyRequests < cfg.MAX_DAILY_REQUESTS ∧ cfg.REQUEST_COOLDOWN ≤ now - lrt) := by
  refine ⟨?_, ?_, rfl, rfl, ?_⟩
  · simp [CacheManager.loadUsageStats, h]
  · simp [CacheManager.loadUsageStats, h]
  · unfold CacheManager.canMakeRequest
    split_ifs with h1 h2
    · simp only [Bool.false_eq_true, false_iff, not_and]
      intro hlt
      omega
    · simp only [Bool.false_eq_true, false_iff, not_and]
      intro hlt
      omega
    · simp only [true_iff]
      constructor
      · omega
      · omega

/-- Witness for claim C2 (amended) at the stale stored record. -/
theorem claim_C2_amended_witness :
    (CacheManager.loadUsageStats statsStale "Sat Oct 11 2025").dailyRequests = 0
    ∧ (CacheManager.loadUsageStats statsStale "Sat Oct 11 2025").lastReset = "Sat Oct 11 2025"
    ∧ (CacheManager.recordRequest statsStale 99 0).1.dailyRequests = statsStale.dailyRequests + 1
    ∧ (CacheManager.getUsageStats statsStale).dailyRequests = statsStale.dailyRequests
    ∧ (CacheManager.canMakeRequest defaultConfig statsStale 0 99 = true ↔
        statsStale.dailyRequests < defaultConfig.MAX_DAILY_REQUESTS
        ∧ defaultConfig.REQUEST_COOLDOWN ≤ 99 - 0) :=
  claim_C2_amended_reset_only_on_load defaultConfig statsStale "Sat Oct 11 2025" 0 99 0 (by decide)

/-- Claim C3: buildContextPrompt never returns the assembled prompt at all:
its final template reads the name config, which context-manager.js never
imports, so every call raises a ReferenceError regardless of the available
context signals, and the described prompt string is never produced. -/
theorem claim_C3_buildContextPrompt_raises (st : ContextState) (userInput : String) :
    buildContextPrompt st userInput = Except.error JsErr.referenceError := rfl

/-- Claim C7: with caching enabled, an entry stored at time T is returned
by get exactly for query times strictly before T plus the configured ttl. -/
theorem claim_C7_cache_expiry (cfg : Config) (cache : CacheManager.CacheMap)
    (stats : CacheManager.UsageStats) (input sugg : String) (T t : Int)
    (hE : cfg.ENABLE_CACHE = true)
    (hmem : CacheManager.mapGet cache (CacheManager.getCacheKey input) = some ⟨sugg, T⟩) :
    ((CacheManager.get cfg cache stats input t).1 = some sugg
      ↔ t < T + cfg.CACHE_DURATION) := by
  unfold CacheManager.get
  simp only [hE, Bool.true_eq_false, if_false, hmem]
  split
  · next h => exact iff_of_true rfl (by omega)
  · next h => exact iff_of_false (by simp) (by omega)

/-- Witness for claim C7: a hit exactly one millisecond before expiry. -/
theorem claim_C7_witness :
    (CacheManager.get defaultConfig cacheOne statsZero "a" 3599999).1 = some "s" :=
  (claim_C7_cache_expiry defaultConfig cacheOne statsZero "a" "s" 0 3599999 rfl
    (by decide)).mpr (by decide)

/-- Claim C8 counterexample: a successful cache get mutates the usage
record (the shared hit counter) yet performs no store write, so that
mutation is not flushed as part of the operation. -/
theorem claim_C8_counterexample :
    (CacheManager.get defaultConfig cacheOne statsZero "a" 100).2.1 ≠ statsZero
    ∧ (CacheManager.get defaultConfig cacheOne statsZero "a" 100).2.2 = [] := by
  refine ⟨by decide, rfl⟩

/-- Claim C8 (amended): set and recordRequest flush the mutated structure
as part of the same operation, but the hit-counter increment of a
successful get is not flushed: get never writes a store, even on the hit
that mutates cachedHits. -/
theorem claim_C8_amended_write_through (cfg : Config) (cache : CacheManager.CacheMap)
    (stats : CacheManager.UsageStats) (input sugg : String) (now T : Int) (tok : Nat)
    (hE : cfg.ENABLE_CACHE = true)
    (hmem : CacheManager.mapGet cache (CacheManager.getCacheKey input) = some ⟨sugg, T⟩)
    (hfresh : now - T < cfg.CACHE_DURATION) :
    (CacheManager.set cfg cache input sugg now).2
      = [CacheManager.StoreWrite.cacheFile (CacheManager.set cfg cache input sugg now).1]
    ∧ (CacheManager.recordRequest stats now tok).2.2
      = [CacheManager.StoreWrite.usageFile (CacheManager.recordRequest stats now tok).1]
    ∧ (CacheManager.get cfg cache stats input now).2.2 = []
    ∧ (CacheManager.get cfg cache stats input now).2.1.cachedHits = stats.cachedHits + 1 := by
  refine ⟨?_, rfl, (CacheManager.get_stats_frame cfg cache stats input now).2.2.2, ?_⟩
  · unfold CacheManager.set
    simp only [hE, Bool.true_eq_false, if_false]
  · unfold CacheManager.get
    simp only [hE, Bool.true_eq_false, if_false, hmem, if_pos hfresh]

/-- Witness for claim C8 (amended) on a concrete fresh hit. -/
theorem claim_C8_amended_witness :
    (CacheManager.set defaultConfig cacheOne "a" "s" 100).2
      = [CacheManager.StoreWrite.cacheFile (CacheManager.set defaultConfig cacheOne "a" "s" 100).1]
    ∧ (CacheManager.recordRequest statsZero 100 0).2.2
      = [CacheManager.StoreWrite.usageFile (CacheManager.recordRequest statsZero 100 0).1]
    ∧ (CacheManager.get defaultConfig cacheOne statsZero "a" 100).2.2 = []
    ∧ (CacheManager.get defaultConfig cacheOne statsZero "a" 100).2.1.cachedHits
      = statsZero.cachedHits + 1 :=
  claim_C8_amended_write_through defaultConfig cacheOne statsZero "a" "s" 100 0 0 rfl
    (by decide) (by decide)

/-- Claim C9 counterexample: with one cached hit out of two requests, the
reported cacheHitRate is the percentage 50, not the ratio one half that
the claim states. -/
theorem claim_C9_counterexample :
    (CacheManager.getUsageStats statsHalf).cacheHitRate = 50
    ∧ (statsHalf.cachedHits : ℚ) / (statsHalf.totalRequests : ℚ) = 1 / 2
    ∧ (50 : ℚ) ≠ 1 / 2 := by
  refine ⟨?_, by norm_num [statsHalf], by norm_num⟩
  show CacheManager.toFixedQ 1 (((1 : ℚ) / (2 : ℚ)) * 100) = 50
  norm_num [CacheManager.toFixedQ]

/-- Claim C9 (amended): getStats reports the counters and the cost
unchanged, a cacheHitRate equal to the percentage 100 times cachedHits
over totalRequests rounded to one decimal (0 when totalRequests is 0),
and an estimatedCost equal to costEstimate rounded to six decimals. -/
theorem claim_C9_amended_stats_view (s : CacheManager.UsageStats) :
    (CacheManager.getUsageStats s).totalRequests = s.totalRequests
    ∧ (CacheManager.getUsageStats s).dailyRequests = s.dailyRequests
    ∧ (CacheManager.getUsageStats s).cachedHits = s.cachedHits
    ∧ (CacheManager.getUsageStats s).costEstimate = s.costEstimate
    ∧ (s.totalRequests = 0 → (CacheManager.getUsageStats s).cacheHitRate = 0)
    ∧ (0 < s.totalRequests →
        (CacheManager.getUsageStats s).cacheHitRate
          = CacheManager.toFixedQ 1 (100 * (s.cachedHits : ℚ) / (s.totalRequests : ℚ)))
    ∧ (CacheManager.getUsageStats s).estimatedCost = CacheManager.toFixedQ 6 s.costEstimate := by
  refine ⟨rfl, rfl, rfl, rfl, ?_, ?_, rfl⟩
  · intro h
    simp [CacheManager.getUsageStats, h]
  · intro h
    simp only [CacheManager.getUsageStats, if_pos h]
    congr 1
    ring

/-- Witness for claim C9 (amended) at one hit out of two requests. -/
theorem claim_C9_amended_witness :
    (CacheManager.getUsageStats statsHalf).cacheHitRate
      = CacheManager.toFixedQ 1 (100 * (statsHalf.cachedHits : ℚ) / (statsHalf.totalRequests : ℚ)) :=
  (claim_C9_amended_stats_view statsHalf).2.2.2.2.2.1 (by decide)

theorem postWithKeyRotation_ok {R : Type} (resp : Nat → Option R) (r : R) :
    ∀ (j a i K : Nat), i < K → a + j < K →
    (∀ t, t < j → resp (a + t) = none) → resp (a + j) = some r →
    postWithKeyRotation K resp i a = (Except.ok r, (i + j) % K)
    ∧ (triedKeys K resp i a).length = j + 1 := by
  intro j
  induction j with
  | zero =>
    intro a i K hi hlt _ hsucc
    rw [Nat.add_zero] at hsucc
    unfold postWithKeyRotation triedKeys
    rw [if_neg (by omega), if_neg (by omega), hsucc]
    exact ⟨by simp [Nat.mod_eq_of_lt hi], rfl⟩
  | succ n ih =>
    intro a i K hi hlt hfail hsucc
    have hK : 0 < K := by omega
    have hfa : resp a = none := by
      have := hfail 0 (by omega)
      rwa [Nat.add_zero] at this
    have hrec := ih (a + 1) ((i + 1) % K) K (Nat.mod_lt _ hK) (by omega)
      (fun t ht => by
        have := hfail (t + 1) (by omega)
        rwa [show a + (t + 1) = a + 1 + t by omega] at this)
      (by rwa [show a + 1 + n = a + (n + 1) by omega])
    unfold postWithKeyRotation triedKeys
    rw [if_neg (by omega), if_neg (by omega), hfa]
    refine ⟨?_, ?_⟩
    · rw [hrec.1, Nat.mod_add_mod, show i + 1 + n = i + (n + 1) by omega]
    · simp only [List.length_cons, hrec.2]

theorem postWithKeyRotation_exhaust {R : Type} (resp : Nat → Option R) :
    ∀ (d a i K : Nat), a + d = K → i < K →
    (∀ t, a ≤ t → t < K → resp t = none) →
    (postWithKeyRotation K resp i a).1 = Except.error "All API keys exhausted or failed."
    ∧ triedKeys K resp i a = (List.range d).map (fun t => (i + t) % K) := by
  intro d
  induction d with
  | zero =>
    intro a i K ha _ _
    unfold postWithKeyRotation triedKeys
    rw [if_pos (by omega), if_pos (by omega)]
    exact ⟨rfl, rfl⟩
  | succ n ih =>
    intro a i K ha hi hfail
    have hK : 0 < K := by omega
    have hfa : resp a = none := hfail a (Nat.le_refl a) (by omega)
    have hrec := ih (a + 1) ((i + 1) % K) K (by omega) (Nat.mod_lt _ hK)
      (fun t ht htK => hfail t (by omega) htK)
    unfold postWithKeyRotation triedKeys
    rw [if_neg (by omega), if_neg (by omega), hfa]
    refine ⟨hrec.1, ?_⟩
    rw [hrec.2, List.range_succ_eq_map, List.map_cons, List.map_map]
    refine congrArg₂ List.cons ?_ ?_
    · simp [Nat.mod_eq_of_lt hi]
    · refine List.map_congr_left fun t ht => ?_
      simp only [Function.comp_apply, Nat.mod_add_mod]
      congr 1
      omega

theorem rotation_trace_count (K i k : Nat) (hi : i < K) (hk : k < K) :
    ((List.range K).map (fun t => (i + t) % K)).count k = 1 := by
  have hnd : ((List.range K).map (fun t => (i + t) % K)).Nodup := by
    refine List.Nodup.map_on ?_ (List.nodup_range K)
    intro t₁ h₁ t₂ h₂ heq
    rw [List.mem_range] at h₁ h₂
    have hm : t₁ % K = t₂ % K := Nat.ModEq.add_left_cancel' i heq
    rwa [Nat.mod_eq_of_lt h₁, Nat.mod_eq_of_lt h₂] at hm
  have hmem : k ∈ (List.range K).map (fun t => (i + t) % K) := by
    rw [List.mem_map]
    refine ⟨if i ≤ k then k - i else k + K - i, ?_, ?_⟩
    · rw [List.mem_range]
      split_ifs <;> omega
    · split_ifs with h
      · rw [show i + (k - i) = k by omega, Nat.mod_eq_of_lt hk]
      · rw [show i + (k + K - i) = k + K by omega, Nat.add_mod_right, Nat.mod_eq_of_lt hk]
  exact List.count_eq_one_of_mem hnd hmem

/-- Claim C1: starting from any valid cursor i in a pool of K credentials,
a send whose first j attempts fail and whose next attempt succeeds returns
that success with the cursor advanced j positions circularly (after j + 1
attempts); a send whose K attempts all fail surfaces the exhaustion error
after exactly K attempts, each credential index tried exactly once. -/
theorem claim_C1_credential_rotation {R : Type} (K i : Nat) (resp : Nat → Option R)
    (_hK : 1 ≤ K) (hi : i < K) :
    (∀ j r, j < K → (∀ t, t < j → resp t = none) → resp j = some r →
      postWithKeyRotation K resp i 0 = (Except.ok r, (i + j) % K)
      ∧ (triedKeys K resp i 0).length = j + 1)
    ∧ ((∀ t, t < K → resp t = none) →
      (postWithKeyRotation K resp i 0).1 = Except.error "All API keys exhausted or failed."
      ∧ (triedKeys K resp i 0).length = K
      ∧ ∀ k, k < K → (triedKeys K resp i 0).count k = 1) := by
  constructor
  · intro j r hj hfail hsucc
    exact postWithKeyRotation_ok resp r j 0 i K hi (by omega)
      (fun t ht => by simpa using hfail t ht) (by simpa using hsucc)
  · intro hfail
    have h := postWithKeyRotation_exhaust resp K 0 i K (by omega) hi
      (fun t _ ht => hfail t ht)
    refine ⟨h.1, ?_, ?_⟩
    · rw [h.2, List.length_map, List.length_range]
    · intro k hk
      rw [h.2]
      exact rotation_trace_count K i k hi hk

/-- Witness for claim C1: pool of two credentials, first attempt fails,
second succeeds; the call returns the success with the cursor advanced one
position after two attempts. -/
theorem claim_C1_witness :
    postWithKeyRotation 2 respSecond 0 0 = (Except.ok 7, 1)
    ∧ (triedKeys 2 respSecond 0 0).length = 2 :=
  (claim_C1_credential_rotation 2 0 respSecond (by omega) (by omega)).1 1 7 (by omega)
    (fun t ht => by
      have h0 : t = 0 := by omega
      subst h0
      rfl)
    rfl

theorem set_fresh_append (cfg : Config) (c : CacheManager.CacheMap)
    (input s : String) (t : Int) (hE : cfg.ENABLE_CACHE = true)
    (hlt : c.length < cfg.MAX_CACHE_SIZE)
    (hfresh : CacheManager.getCacheKey input ∉ c.map Prod.fst) :
    (CacheManager.set cfg c input s t).1
      = c ++ [(CacheManager.getCacheKey input, ⟨s, t⟩)] := by
  unfold CacheManager.set
  simp only [hE, Bool.true_eq_false, if_false]
  rw [if_neg (by omega)]
  exact CacheManager.mapSet_fresh c _ _ hfresh

theorem set_capacity_fresh (cfg : Config) (k₀ : String) (e₀ : CacheManager.CacheEntry)
    (rest : CacheManager.CacheMap) (input s : String) (t : Int)
    (hE : cfg.ENABLE_CACHE = true)
    (hcap : cfg.MAX_CACHE_SIZE ≤ ((k₀, e₀) :: rest).length)
    (hfresh : CacheManager.getCacheKey input ∉ ((k₀, e₀) :: rest).map Prod.fst) :
    (CacheManager.set cfg ((k₀, e₀) :: rest) input s t).1
      = rest ++ [(CacheManager.getCacheKey input, ⟨s, t⟩)] := by
  unfold CacheManager.set
  simp only [hE, Bool.true_eq_false, if_false]
  rw [if_pos hcap]
  simp only [List.head?_cons]
  have hdel : CacheManager.mapDelete ((k₀, e₀) :: rest) k₀ = rest := by
    unfold CacheManager.mapDelete
    rw [if_pos rfl]
  rw [hdel]
  simp only [List.map_cons, List.mem_cons, not_or] at hfresh
  exact CacheManager.mapSet_fresh rest _ _ hfresh.2

theorem insertAll_nil (cfg : Config) (c : CacheManager.CacheMap) :
    CacheManager.insertAll cfg [] c = c := rfl

theorem insertAll_cons (cfg : Config) (p : String × String × Int)
    (rest : List (String × String × Int)) (c : CacheManager.CacheMap) :
    CacheManager.insertAll cfg (p :: rest) c
      = CacheManager.insertAll cfg rest (CacheManager.set cfg c p.1 p.2.1 p.2.2).1 := rfl

theorem insertAll_append (cfg : Config) (a b : List (String × String × Int))
    (c : CacheManager.CacheMap) :
    CacheManager.insertAll cfg (a ++ b) c
      = CacheManager.insertAll cfg b (CacheManager.insertAll cfg a c) := by
  induction a generalizing c with
  | nil => rfl
  | cons p rest ih =>
    rw [List.cons_append, insertAll_cons, insertAll_cons]
    exact ih _

theorem insertAll_fresh (cfg : Config) (hE : cfg.ENABLE_CACHE = true) :
    ∀ (l : List (String × String × Int)) (c : CacheManager.CacheMap),
    c.length + l.length ≤ cfg.MAX_CACHE_SIZE →
    (c.map Prod.fst ++ l.map (fun p => CacheManager.getCacheKey p.1)).Nodup →
    CacheManager.insertAll cfg l c
      = c ++ l.map (fun p => (CacheManager.getCacheKey p.1, ⟨p.2.1, p.2.2⟩)) := by
  intro l
  induction l with
  | nil =>
    intro c _ _
    simp [insertAll_nil]
  | cons p rest ih =>
    intro c hlen hnd
    rw [insertAll_cons]
    have hfresh : CacheManager.getCacheKey p.1 ∉ c.map Prod.fst := by
      have hdisj := List.disjoint_of_nodup_append hnd
      intro hmem
      exact hdisj hmem (by simp)
    rw [set_fresh_append cfg c p.1 p.2.1 p.2.2 hE (by simp at hlen; omega) hfresh]
    have hstep := ih (c ++ [(CacheManager.getCacheKey p.1,
        (⟨p.2.1, p.2.2⟩ : CacheManager.CacheEntry))])
      (by simp at hlen ⊢; omega)
      (by
        simp only [List.map_append, List.map_cons, List.map_nil] at hnd ⊢
        simpa [List.append_assoc] using hnd)
    rw [hstep]
    simp

/-- Claim C6: with caching enabled and capacity at least one, inserting
capacity plus one distinct keys into an empty cache evicts exactly the
earliest-inserted entry: the final keys are the inserted keys minus the
first, the size equals the capacity, the first key is absent and every
later key is present. -/
theorem claim_C6_capacity_eviction (cfg : Config) (l : List (String × String × Int))
    (hE : cfg.ENABLE_CACHE = true) (hM : 1 ≤ cfg.MAX_CACHE_SIZE)
    (hlen : l.length = cfg.MAX_CACHE_SIZE + 1)
    (hnd : (l.map (fun p => CacheManager.getCacheKey p.1)).Nodup) :
    (CacheManager.insertAll cfg l []).map Prod.fst
        = (l.map (fun p => CacheManager.getCacheKey p.1)).tail
    ∧ (CacheManager.insertAll cfg l []).length = cfg.MAX_CACHE_SIZE
    ∧ (∀ k₀, (l.map (fun p => CacheManager.getCacheKey p.1)).head? = some k₀ →
        k₀ ∉ (CacheManager.insertAll cfg l []).map Prod.fst)
    ∧ (∀ k ∈ (l.map (fun p => CacheManager.getCacheKey p.1)).tail,
        k ∈ (CacheManager.insertAll cfg l []).map Prod.fst) := by
  rcases List.eq_nil_or_concat l with rfl | ⟨l₁, p, rfl⟩
  · simp at hlen
  · rw [List.concat_eq_append] at hlen hnd ⊢
    have hl₁ : l₁.length = cfg.MAX_CACHE_SIZE := by
      simp at hlen
      omega
    have hndsplit : ((l₁.map fun r => CacheManager.getCacheKey r.1)
        ++ [CacheManager.getCacheKey p.1]).Nodup := by
      simpa [List.map_append] using hnd
    have hnd₁ : (l₁.map fun r => CacheManager.getCacheKey r.1).Nodup :=
      hndsplit.of_append_left
    have hfreshp : CacheManager.getCacheKey p.1
        ∉ l₁.map fun r => CacheManager.getCacheKey r.1 := by
      intro hmem
      exact List.disjoint_of_nodup_append hndsplit hmem (by simp)
    have h₁ : CacheManager.insertAll cfg l₁ []
        = l₁.map (fun r => (CacheManager.getCacheKey r.1, ⟨r.2.1, r.2.2⟩)) := by
      have h := insertAll_fresh cfg hE l₁ [] (by simp [hl₁]) (by simpa using hnd₁)
      simpa using h
    rcases l₁ with _ | ⟨q, l₁'⟩
    · simp at hl₁
      omega
    · have hmain : CacheManager.insertAll cfg ((q :: l₁') ++ [p]) []
          = (l₁'.map fun r => (CacheManager.getCacheKey r.1, ⟨r.2.1, r.2.2⟩))
            ++ [(CacheManager.getCacheKey p.1, ⟨p.2.1, p.2.2⟩)] := by
        rw [insertAll_append, h₁, List.map_cons, insertAll_cons, insertAll_nil]
        exact set_capacity_fresh cfg _ _ _ p.1 p.2.1 p.2.2 hE
          (by
            simp only [List.length_cons, List.length_map]
            simp at hl₁
            omega)
          (by simpa [List.map_map, Function.comp] using hfreshp)
      rw [hmain]
      have hlq : l₁'.length + 1 = cfg.MAX_CACHE_SIZE := by simpa using hl₁
      have hndc : (CacheManager.getCacheKey q.1 ::
          ((l₁'.map fun r => CacheManager.getCacheKey r.1)
            ++ [CacheManager.getCacheKey p.1])).Nodup := by
        simpa using hnd
      refine ⟨?_, ?_, ?_, ?_⟩
      · simp [List.map_append, List.map_map, Function.comp]
      · simp only [List.length_append, List.length_map, List.length_cons, List.length_nil]
        omega
      · intro k₀ hk₀
        have hk₀' : k₀ = CacheManager.getCacheKey q.1 := by
          simp at hk₀
          exact hk₀.symm
        subst hk₀'
        have hq := (List.nodup_cons.mp hndc).1
        intro hmem
        apply hq
        simpa [List.map_append, List.map_map, Function.comp] using hmem
      · intro k hk
        simp only [List.map_cons, List.tail_cons, List.map_append,
          List.map_map, List.map_nil] at hk ⊢
        simpa [Function.comp] using hk

/-- Witness for claim C6: capacity two, three distinct keys inserted. -/
theorem claim_C6_witness :
    (CacheManager.insertAll cfgMax2 insertTriples []).map Prod.fst
        = (insertTriples.map (fun p => CacheManager.getCacheKey p.1)).tail
    ∧ (CacheManager.insertAll cfgMax2 insertTriples []).length = cfgMax2.MAX_CACHE_SIZE
    ∧ (∀ k₀, (insertTriples.map (fun p => CacheManager.getCacheKey p.1)).head? = some k₀ →
        k₀ ∉ (CacheManager.insertAll cfgMax2 insertTriples []).map Prod.fst)
    ∧ (∀ k ∈ (insertTriples.map (fun p => CacheManager.getCacheKey p.1)).tail,
        k ∈ (CacheManager.insertAll cfgMax2 insertTriples []).map Prod.fst) :=
  claim_C6_capacity_eviction cfgMax2 insertTriples rfl (by decide) rfl (by decide)

/-- Claim C10 counterexample: at capacity two, setting an input whose key
is the earliest-inserted entry evicts that entry and re-inserts the key as
the newest entry, leaving the cache at capacity, not one below it. -/
theorem claim_C10_counterexample :
    (CacheManager.set cfgMax2 cacheTwo "a" "s" 9).1
      = [("b", ⟨"y", 1⟩), ("a", ⟨"s", 9⟩)]
    ∧ (CacheManager.set cfgMax2 cacheTwo "a" "s" 9).1.length
      ≠ cfgMax2.MAX_CACHE_SIZE - 1 := by
  exact ⟨by decide, by decide⟩

/-- Claim C10 (amended): when set runs on a cache holding exactly its
maximum number of entries and the input normalizes to an already-present
key that is not the earliest-inserted one, the earliest-inserted entry is
evicted and the existing key is overwritten in place, leaving the cache one
entry below capacity with the evicted key absent. -/
theorem claim_C10_amended_update_at_capacity (cfg : Config) (k₀ : String)
    (e₀ : CacheManager.CacheEntry) (rest : CacheManager.CacheMap)
    (input sugg : String) (now : Int) (out : CacheManager.CacheMap)
    (hE : cfg.ENABLE_CACHE = true)
    (hcap : ((k₀, e₀) :: rest).length = cfg.MAX_CACHE_SIZE)
    (hnd : (((k₀, e₀) :: rest).map Prod.fst).Nodup)
    (hmem : CacheManager.getCacheKey input ∈ rest.map Prod.fst)
    (hout : out = (CacheManager.set cfg ((k₀, e₀) :: rest) input sugg now).1) :
    out.map Prod.fst = rest.map Prod.fst
    ∧ out.length = cfg.MAX_CACHE_SIZE - 1
    ∧ CacheManager.mapGet out (CacheManager.getCacheKey input) = some ⟨sugg, now⟩
    ∧ k₀ ∉ out.map Prod.fst := by
  have hset : (CacheManager.set cfg ((k₀, e₀) :: rest) input sugg now).1
      = CacheManager.mapSet rest (CacheManager.getCacheKey input) ⟨sugg, now⟩ := by
    unfold CacheManager.set
    simp only [hE, Bool.true_eq_false, if_false]
    rw [if_pos (by omega)]
    simp only [List.head?_cons]
    have hdel : CacheManager.mapDelete ((k₀, e₀) :: rest) k₀ = rest := by
      unfold CacheManager.mapDelete
      rw [if_pos rfl]
    rw [hdel]
  subst hout
  rw [hset]
  have hkeys := CacheManager.mapSet_keys_of_mem rest (CacheManager.getCacheKey input)
    ⟨sugg, now⟩ hmem
  refine ⟨hkeys, ?_, CacheManager.mapGet_mapSet_self rest _ _, ?_⟩
  · have hlen := congrArg List.length hkeys
    simp only [List.length_map] at hlen
    simp only [List.length_cons] at hcap
    omega
  · rw [hkeys]
    exact (List.nodup_cons.mp (by simpa using hnd)).1

/-- Witness for claim C10 (amended): at capacity two, updating the second
key evicts the first entry and leaves one entry. -/
theorem claim_C10_amended_witness :
    ((CacheManager.set cfgMax2 [("a", ⟨"x", 0⟩), ("b", ⟨"y", 1⟩)] "b" "s2" 9).1).map Prod.fst
      = ["b"]
    ∧ ((CacheManager.set cfgMax2 [("a", ⟨"x", 0⟩), ("b", ⟨"y", 1⟩)] "b" "s2" 9).1).length
      = cfgMax2.MAX_CACHE_SIZE - 1
    ∧ CacheManager.mapGet
        (CacheManager.set cfgMax2 [("a", ⟨"x", 0⟩), ("b", ⟨"y", 1⟩)] "b" "s2" 9).1
        (CacheManager.getCacheKey "b") = some ⟨"s2", 9⟩
    ∧ "a" ∉ ((CacheManager.set cfgMax2 [("a", ⟨"x", 0⟩), ("b", ⟨"y", 1⟩)] "b" "s2" 9).1).map Prod.fst :=
  claim_C10_amended_update_at_capacity cfgMax2 "a" ⟨"x", 0⟩ [("b", ⟨"y", 1⟩)] "b" "s2" 9 _
    rfl rfl (by decide) (by decide) rfl

/-- Claim C5: when the service reaches the context step (enabled, long
enough input, cache miss, governor allows) and the snapshot yields a direct
match, getCommandSuggestion returns the first matching canonical command
without invoking the dispatcher and leaves the cache contents, the request
counters, the cost estimate and the last-request timestamp unchanged. -/
theorem claim_C5_direct_match_frame (cfg : Config) (K : Nat) (st : ServiceState)
    (ctx : ContextState) (input : String) (now : Int)
    (resp : Nat → Option ResponseData) (m : String) (ms : List String)
    (out : SuggestOutcome)
    (hEn : cfg.ENABLE_SUGGESTIONS = true)
    (hLen : ¬ (jsTrim input).length < cfg.MIN_INPUT_LENGTH)
    (hMiss : jsTruthyStr (CacheManager.get cfg st.cache st.usageStats input now).1 = false)
    (hGov : CacheManager.canMakeRequest cfg
        (CacheManager.get cfg st.cache st.usageStats input now).2.1 st.lastRequestTime now = true)
    (hMatch : (getRelevantCommands ctx).filter
        (fun cmd => jsStartsWith (jsToLower cmd) (jsToLower input)) = m :: ms)
    (hout : out = getCommandSuggestionFull cfg K st input now ctx resp) :
    out.result = some m
    ∧ out.state.cache = st.cache
    ∧ out.state.usageStats.totalRequests = st.usageStats.totalRequests
    ∧ out.state.usageStats.dailyRequests = st.usageStats.dailyRequests
    ∧ out.state.usageStats.costEstimate = st.usageStats.costEstimate
    ∧ out.state.lastRequestTime = st.lastRequestTime
    ∧ out.writes = []
    ∧ out.dispatchAttempts = 0 := by
  have hctx : getContextualSuggestion ctx input = Except.ok (Sum.inl m) := by
    unfold getContextualSuggestion
    simp only [hMatch]
  have hf := CacheManager.get_stats_frame cfg st.cache st.usageStats input now
  subst hout
  unfold getCommandSuggestionFull getCommandSuggestion
  rw [hctx]
  simp only [hEn, Bool.true_eq_false, if_false, if_neg hLen, hMiss,
    Bool.false_eq_true, hGov]
  simp [hf.1, hf.2.1, hf.2.2.1, hf.2.2.2]

/-- Witness for claim C5: fresh service state, git-repository context,
input git: the first canonical command is returned with no dispatch. -/
theorem claim_C5_witness :
    (getCommandSuggestionFull defaultConfig 1 stFresh "git" 1000000000 ctxGit
        (fun _ => none)).result = some "git status"
    ∧ (getCommandSuggestionFull defaultConfig 1 stFresh "git" 1000000000 ctxGit
        (fun _ => none)).state.cache = stFresh.cache
    ∧ (getCommandSuggestionFull defaultConfig 1 stFresh "git" 1000000000 ctxGit
        (fun _ => none)).writes = []
    ∧ (getCommandSuggestionFull defaultConfig 1 stFresh "git" 1000000000 ctxGit
        (fun _ => none)).dispatchAttempts = 0 :=
  (fun h => ⟨h.1, h.2.1, h.2.2.2.2.2.2.1, h.2.2.2.2.2.2.2⟩)
    (claim_C5_direct_match_frame defaultConfig 1 stFresh ctxGit "git" 1000000000
      (fun _ => none) "git status" ["git add .", "git commit", "git push", "git pull"] _
      rfl (by decide) (by decide) (by decide) (by decide) rfl)

/-- Claim C4 (amended): when the dispatch completes without transport
failure at attempt j, the call used exactly j + 1 attempts and the cursor
sits at the successful credential regardless of the response shape; a
response with a missing candidates field, an empty candidate list, or a
broken first candidate yields no suggestion and no store write; and a
first candidate whose text is present is accepted even when that text is
empty: its trimmed, truncated text (possibly the empty string) is
returned (and cached and counted), not treated as no suggestion. -/
theorem claim_C4_amended_response_acceptance (cfg : Config) (K j : Nat)
    (st : ServiceState) (input p : String) (now : Int)
    (resp : Nat → Option ResponseData) (data : ResponseData) (out : SuggestOutcome)
    (hEn : cfg.ENABLE_SUGGESTIONS = true)
    (hLen : ¬ (jsTrim input).length < cfg.MIN_INPUT_LENGTH)
    (hMiss : jsTruthyStr (CacheManager.get cfg st.cache st.usageStats input now).1 = false)
    (hGov : CacheManager.canMakeRequest cfg
        (CacheManager.get cfg st.cache st.usageStats input now).2.1 st.lastRequestTime now = true)
    (hi : st.currentKeyIndex < K) (hj : j < K)
    (hfail : ∀ t, t < j → resp t = none) (hsucc : resp j = some data)
    (hout : out = getCommandSuggestion cfg K st input now (Except.ok (Sum.inr p)) resp) :
    out.dispatchAttempts = j + 1
    ∧ out.state.currentKeyIndex = (st.currentKeyIndex + j) % K
    ∧ (data.candidates = none → out.result = none ∧ out.writes = [])
    ∧ (data.candidates = some [] → out.result = none ∧ out.writes = [])
    ∧ (∀ c cs e, data.candidates = some (c :: cs) →
        extractCandidateText c = Except.error e → out.result = none ∧ out.writes = [])
    ∧ (∀ c cs t, data.candidates = some (c :: cs) →
        extractCandidateText c = Except.ok t →
        out.result = some (jsTake t cfg.MAX_SUGGESTION_LENGTH)) := by
  have hpost := postWithKeyRotation_ok resp data j 0 st.currentKeyIndex K hi (by omega)
    (fun t ht => by simpa using hfail t ht) (by simpa using hsucc)
  have hf := CacheManager.get_stats_frame cfg st.cache st.usageStats input now
  subst hout
  unfold getCommandSuggestion
  simp only [hEn, Bool.true_eq_false, if_false, if_neg hLen, hMiss,
    Bool.false_eq_true, hGov, hpost.1, hpost.2]
  rcases hdc : data.candidates with _ | (_ | ⟨c, cs'⟩)
  · simp only [hdc]
    refine ⟨by trivial, by trivial, fun _ => ⟨by trivial, hf.2.2.2⟩, ?_, ?_, ?_⟩
    · intro h
      simp at h
    · intro c2 cs2 e h1 _
      simp at h1
    · intro c2 cs2 t h1 _
      simp at h1
  · simp only [hdc]
    refine ⟨by trivial, by trivial, ?_, fun _ => ⟨by trivial, hf.2.2.2⟩, ?_, ?_⟩
    · intro h
      simp at h
    · intro c2 cs2 e h1 _
      simp at h1
    · intro c2 cs2 t h1 _
      simp at h1
  · simp only [hdc]
    rcases hext : extractCandidateText c with e0 | t0
    · simp only [hext]
      refine ⟨by trivial, by trivial, ?_, ?_, fun c2 cs2 e h1 _ => ⟨by trivial, hf.2.2.2⟩, ?_⟩
      · intro h
        simp at h
      · intro h
        simp at h
      · intro c2 cs2 t h1 h2
        have hc2 : c2 = c := by
          injection h1 with h1'
          injection h1' with h1'' _
          exact h1''.symm
        subst hc2
        rw [hext] at h2
        cases h2
    · simp only [hext]
      refine ⟨by trivial, by trivial, ?_, ?_, ?_, ?_⟩
      · intro h
        simp at h
      · intro h
        simp at h
      · intro c2 cs2 e h1 h2
        have hc2 : c2 = c := by
          injection h1 with h1'
          injection h1' with h1'' _
          exact h1''.symm
        subst hc2
        rw [hext] at h2
        cases h2
      · intro c2 cs2 t h1 h2
        have hc2 : c2 = c := by
          injection h1 with h1'
          injection h1' with h1'' _
          exact h1''.symm
        subst hc2
        rw [hext] at h2
        injection h2 with h2'
        subst h2'
        rfl

/-- Witness for claim C4 (amended): a response whose only candidate has
empty text is accepted and the empty suggestion is returned. -/
theorem claim_C4_amended_witness :
    (getCommandSuggestion defaultConfig 1 stFresh "abc" 1000000000
        (Except.ok (Sum.inr "p")) respEmptyText).result = some "" := by
  have h := (claim_C4_amended_response_acceptance defaultConfig 1 0 stFresh "abc" "p"
      1000000000 respEmptyText dataEmptyText _
      rfl (by decide) (by decide) (by decide) (by decide) (by decide)
      (fun t ht => absurd ht (Nat.not_lt_zero t)) rfl rfl).2.2.2.2.2
      { content := some { parts := [{ text := some "" }] } } [] "" rfl rfl
  exact h.trans (by decide)

/-- Claim C4 counterexample: a dispatch that completes with a response
whose only candidate has empty text does not yield no suggestion: the
empty string is returned and the cache and usage stores are written. -/
theorem claim_C4_counterexample :
    (getCommandSuggestion defaultConfig 1 stFresh "abc" 1000000000
        (Except.ok (Sum.inr "p")) respEmptyText).result = some ""
    ∧ (getCommandSuggestion defaultConfig 1 stFresh "abc" 1000000000
        (Except.ok (Sum.inr "p")) respEmptyText).writes ≠ [] := by
  have hpost := postWithKeyRotation_ok respEmptyText dataEmptyText 0 0 0 1
    (by omega) (by omega) (fun t ht => absurd ht (Nat.not_lt_zero t)) rfl
  constructor <;>
  · unfold getCommandSuggestion
    simp only [stFresh]
    rw [hpost.1]
    decide
